import Mathlib

/-!
Shallow embedding of the entitlement / diagnosis-session core of the
`my-react` crop-diagnosis application (src/src/App.tsx, final variant,
together with the Firebase cloud functions in src/unnamed/part_000 and
src/unnamed/part_001).

The embedding models:
* the client `App` state relevant to entitlement (`AppState`),
* the remote Firestore `users` collection (`Store`, a keyed list of
  `UserDoc` records),
* the device-local storage values (`guestStoredCount`, and the serialized
  history blob for `saveHistoryToLocalStorage`),
* `handleDiagnose`, `updateUserState`, `handleSimulatePayment` from
  App.tsx and `polarWebhook` from the cloud-function source,
* `resizeImage` / `processFile` image ingestion, with the browser
  environment (file readability, decodability, canvas-context
  availability) made explicit as a parameter.

Asynchronous I/O is modelled by passing the outcome of the single
external oracle call (`OracleOutcome`) as an argument and by explicit
state threading.
-/

namespace CropDiagnosis

/-- A Firestore numeric limit: either a finite number or the JavaScript
value `Infinity` (written `unlimited` here). -/
inductive Limit where
  | finite (n : Nat)
  | unlimited
deriving Repr, DecidableEq

/-- Constant `GUEST_DIAGNOSIS_LIMIT = 5` in App.tsx. -/
def GUEST_DIAGNOSIS_LIMIT : Nat := 5

/-- Constant `USER_DIAGNOSIS_LIMIT = 20` in App.tsx. -/
def USER_DIAGNOSIS_LIMIT : Nat := 20

/-- Constant `MAX_HISTORY_ITEMS = 20` in App.tsx. -/
def MAX_HISTORY_ITEMS : Nat := 20

/-- The `HistoryItem` record of App.tsx: `id`, optional `image`
(data-URL string), `diagnosis` text and display `date`. -/
structure HistoryItem where
  id : Nat
  image : Option String
  diagnosis : String
  date : String
deriving Repr, DecidableEq

/-- The Firestore `users/{uid}` document as written by `updateUserState`:
`{ email, displayName, diagnosisCount, diagnosisLimit, hasPaid, createdAt }`. -/
structure UserDoc where
  email : String
  displayName : String
  diagnosisCount : Nat
  diagnosisLimit : Limit
  hasPaid : Bool
  createdAt : Nat
deriving Repr, DecidableEq

/-- The remote `users` collection: documents keyed by uid, kept in the
collection's enumeration order (the webhook's `limit(1)` query takes the
first document in this order whose `email` field matches). -/
abbrev Store := List (String × UserDoc)

/-- The Firebase auth user object (the fields App.tsx reads). -/
structure AuthUser where
  uid : String
  email : String
  displayName : String
deriving Repr, DecidableEq

/-- The slice of the `App` component state that the entitlement and
history logic reads and writes.  `guestStoredCount` is the
device-local-storage value `guestDiagnosisCount`. -/
structure AppState where
  image : Option String
  diagnosis : String
  history : List HistoryItem
  user : Option AuthUser
  diagnosisCount : Nat
  diagnosisLimit : Limit
  guestStoredCount : Nat
deriving Repr, DecidableEq

/-- The check `diagnosisCount >= diagnosisLimit` in App.tsx; comparison with the
JavaScript value `Infinity` is always false for a finite count. -/
def isBlocked (count : Nat) (limit : Limit) : Bool :=
  match limit with
  | .finite n => decide (n ≤ count)
  | .unlimited => false

/-- Look a document up by uid (`doc(db, "users", uid)` + `getDoc`). -/
def lookupUid (uid : String) : Store → Option UserDoc
  | [] => none
  | (k, d) :: rest => if k = uid then some d else lookupUid uid rest

/-- The write `setDoc(userRef, { diagnosisCount: increment(1) }, { merge: true })`:
the atomic server-side increment of the stored counter.  (When the
document does not exist the model leaves the store unchanged; in the
application the document always exists for a signed-in user, having been
created by `updateUserState`.) -/
def incrementUser (uid : String) : Store → Store
  | [] => []
  | (k, d) :: rest =>
    if k = uid then
      (k, { d with diagnosisCount := d.diagnosisCount + 1 }) :: incrementUser uid rest
    else (k, d) :: incrementUser uid rest

/-- The expression `[newHistoryItem, ...history].slice(0, MAX_HISTORY_ITEMS)`. -/
def appendHistory (item : HistoryItem) (history : List HistoryItem) : List HistoryItem :=
  (item :: history).take MAX_HISTORY_ITEMS

/-- Fallback diagnosis text when the oracle response carries no content:
`진단 결과를 받아올 수 없습니다.`. -/
def noContentMsg : String := "진단 결과를 받아올 수 없습니다."

/-- Fallback error message: `알 수 없는 오류가 발생했습니다.`. -/
def unknownErrorMsg : String := "알 수 없는 오류가 발생했습니다."

/-- Quota message shown to a signed-in user. -/
def quotaMsgUser : String := "모든 진단 횟수를 소진했습니다. 추가 횟수를 원하시면 후원해주세요."

/-- Quota message shown to a guest (interpolates `GUEST_DIAGNOSIS_LIMIT`). -/
def quotaMsgGuest : String :=
  "무료 진단 횟수 " ++ toString GUEST_DIAGNOSIS_LIMIT ++
    "회를 모두 사용했습니다. 더 많은 기능을 이용하려면 로그인해주세요."

/-- Outcome of the single `openai.chat.completions.create` call inside
the `try` block of `handleDiagnose`:
* `ok content` — the call returned and `response.choices[0].message.content`
  evaluated to `content` (`none` models a `null` content field);
* `threw msg` — the call (or the access to `choices[0].message`, i.e. a
  malformed response) raised an exception; `msg` is `error.message` when
  the exception is an `Error` instance, `none` otherwise. -/
inductive OracleOutcome where
  | ok (content : Option String)
  | threw (msg : Option String)
deriving Repr, DecidableEq

/-- Classification of one `handleDiagnose` run. -/
inductive DiagnoseOutcome where
  | noImage
  | quotaExceeded (message : String)
  | success (text : String)
  | oracleFailure (message : String)
deriving Repr, DecidableEq

def DiagnoseOutcome.isSuccess : DiagnoseOutcome → Bool
  | .success _ => true
  | _ => false

/-- Result of one `handleDiagnose` run: the new component state, the new
remote store, the outcome classification, and how many times the
external oracle was invoked during the run. -/
structure DiagnoseResult where
  state : AppState
  store : Store
  outcome : DiagnoseOutcome
  oracleCalls : Nat
deriving Repr, DecidableEq

/-- Function `handleDiagnose` from App.tsx (final variant, lines 800–851).
`now` models `Date.now()` and `dateStr` models
`new Date().toLocaleString()`.

Control flow mirrors the source: early return when no image; early
return with an alert when `diagnosisCount >= diagnosisLimit`; otherwise
one oracle call inside `try`.  On success: `content || noContentMsg` is
the diagnosis text; a signed-in non-`Infinity` user gets a remote atomic
increment plus a local mirror increment; a guest gets a local-storage
write of `diagnosisCount + 1` plus the mirror increment; a paid
(`Infinity`-limit) user is not counted; then the new history item is
prepended and the list truncated.  On an exception: only the diagnosis
text is set to the error message. -/
def handleDiagnose (s : AppState) (store : Store) (now : Nat) (dateStr : String)
    (oracle : OracleOutcome) : DiagnoseResult :=
  match s.image with
  | none => ⟨s, store, .noImage, 0⟩
  | some img =>
    if isBlocked s.diagnosisCount s.diagnosisLimit then
      let msg := match s.user with
        | some _ => quotaMsgUser
        | none => quotaMsgGuest
      ⟨s, store, .quotaExceeded msg, 0⟩
    else
      match oracle with
      | .threw m =>
        let errMsg := m.getD unknownErrorMsg
        ⟨{ s with diagnosis := "오류가 발생했습니다: " ++ errMsg }, store,
          .oracleFailure errMsg, 1⟩
      | .ok content =>
        let newDiagnosis := content.getD noContentMsg
        let step : AppState × Store :=
          match s.user with
          | some u =>
            if s.diagnosisLimit = .unlimited then
              ({ s with diagnosis := newDiagnosis }, store)
            else
              ({ s with
                 diagnosis := newDiagnosis,
                 diagnosisCount := s.diagnosisCount + 1 }, incrementUser u.uid store)
          | none =>
            ({ s with
               diagnosis := newDiagnosis,
               diagnosisCount := s.diagnosisCount + 1,
               guestStoredCount := s.diagnosisCount + 1 }, store)
        let item : HistoryItem := ⟨now, some img, newDiagnosis, dateStr⟩
        ⟨{ step.1 with history := appendHistory item s.history }, step.2,
          .success newDiagnosis, 1⟩

/-- The document `updateUserState` creates when no document exists for a
signed-in user: `{ email, displayName, diagnosisCount: 0,
diagnosisLimit: USER_DIAGNOSIS_LIMIT, hasPaid: false, createdAt }`. -/
def freshUserDoc (u : AuthUser) (now : Nat) : UserDoc :=
  ⟨u.email, u.displayName, 0, .finite USER_DIAGNOSIS_LIMIT, false, now⟩

/-- The expression `userData.diagnosisLimit || USER_DIAGNOSIS_LIMIT`: the JavaScript
`||` substitutes the default for the falsy value `0` (the value
`Infinity` is truthy and passes through). -/
def jsOrLimit : Limit → Limit
  | .finite 0 => .finite USER_DIAGNOSIS_LIMIT
  | l => l

/-- Function `updateUserState` from App.tsx (lines 676–705), combined with the
`setUser(currentUser)` of the `onAuthStateChanged` listener that always
accompanies it.  Signed in and the document exists: copy the stored
counter, and set the limit to `Infinity` when `hasPaid`, else to the
stored limit.  Signed in and no document: create a fresh document.
Signed out: read the device-local guest counter and the guest limit. -/
def updateUserState (s : AppState) (store : Store) (currentUser : Option AuthUser)
    (now : Nat) : AppState × Store :=
  match currentUser with
  | some u =>
    match lookupUid u.uid store with
    | some d =>
      ({ s with
         user := some u,
         diagnosisCount := d.diagnosisCount,
         diagnosisLimit := if d.hasPaid then .unlimited else jsOrLimit d.diagnosisLimit },
       store)
    | none =>
      ({ s with
         user := some u,
         diagnosisCount := 0,
         diagnosisLimit := .finite USER_DIAGNOSIS_LIMIT },
       store ++ [(u.uid, freshUserDoc u now)])
  | none =>
    ({ s with
       user := none,
       diagnosisCount := s.guestStoredCount,
       diagnosisLimit := .finite GUEST_DIAGNOSIS_LIMIT }, store)

/-- The payment mutation shared by the webhook and by
`handleSimulatePayment` (`setDoc(userRef, { hasPaid: true, diagnosisLimit: Infinity }, { merge: true })`):
a fixed assignment of both fields. -/
def payDoc (d : UserDoc) : UserDoc :=
  { d with hasPaid := true, diagnosisLimit := .unlimited }

/-- The store mutation of `handleSimulatePayment` in App.tsx (lines 866–877): for a
signed-in user, merge `{ hasPaid: true, diagnosisLimit: Infinity }` into
the user's document, then re-run `updateUserState` on the updated store.
(The model applies the merge to the existing document; in the
application the document always exists for a signed-in user.) -/
def payUser (uid : String) : Store → Store
  | [] => []
  | (k, d) :: rest =>
    if k = uid then (k, payDoc d) :: payUser uid rest
    else (k, d) :: payUser uid rest

/-- Function `handleSimulatePayment`: the `payUser` merge followed by the
`updateUserState(user)` re-read of App.tsx lines 866–877. -/
def handleSimulatePayment (s : AppState) (store : Store) (now : Nat) : AppState × Store :=
  match s.user with
  | none => (s, store)
  | some u => updateUserState s (payUser u.uid store) (some u) now

/-! ## Entitlement webhook receiver (src/unnamed/part_001, `polarWebhook`) -/

/-- The fields of the webhook request body that `polarWebhook` reads:
`event.type`, `event.payload.pledge.pledge_tier.organization.name` and
`event.payload.pledge.pledger.email`. -/
structure WebhookEvent where
  type : String
  orgName : String
  pledgerEmail : String
deriving Repr, DecidableEq

/-- The HTTP response the webhook sends. -/
structure HttpResponse where
  status : Nat
  body : String
deriving Repr, DecidableEq

/-- JavaScript `String.prototype.toLowerCase()`, modelled character by
character (the organization names involved are ASCII). -/
def jsToLowerCase (s : String) : String :=
  ⟨s.data.map Char.toLower⟩

/-- The webhook's account lookup-and-update:
`usersRef.where("email", "==", customerEmail).limit(1)` followed by
`userDoc.ref.update({ hasPaid: true, diagnosisLimit: Infinity })` —
replace the first document whose `email` equals the given string (exact,
case-sensitive equality) by its paid version; `none` when no document
matches. -/
def updateFirstByEmail (email : String) : Store → Option Store
  | [] => none
  | (k, d) :: rest =>
    if d.email = email then some ((k, payDoc d) :: rest)
    else
      match updateFirstByEmail email rest with
      | none => none
      | some rest' => some ((k, d) :: rest')

/-- The first stored document whose `email` field equals `email`
(the document the webhook's `limit(1)` query returns). -/
def findByEmail (email : String) : Store → Option UserDoc
  | [] => none
  | (_, d) :: rest => if d.email = email then some d else findByEmail email rest

/-- Function `polarWebhook` from src/unnamed/part_001 (lines 23–72): if the event
has `type === "pledge_created"` and its organization name lowercases to
`"nmdong-hue"`, look the account up by the pledger email; update the
first match to paid/unlimited (200), or answer 404 when no account
matches.  Any other event is skipped with 200. -/
def polarWebhook (ev : WebhookEvent) (store : Store) : Store × HttpResponse :=
  if ev.type = "pledge_created" ∧ jsToLowerCase ev.orgName = "nmdong-hue" then
    match updateFirstByEmail ev.pledgerEmail store with
    | none => (store, ⟨404, "User not found"⟩)
    | some store' => (store', ⟨200, "User updated successfully."⟩)
  else (store, ⟨200, "Event skipped"⟩)

/-! ## History persistence (`saveHistoryToLocalStorage`, App.tsx lines 638–647)

Local storage is modelled as the stored string value (if any) for the
key `diagnosisHistory` plus a capacity `cap`: `setItem` succeeds exactly
when the serialized payload fits, and otherwise raises the quota
exception the `catch` block handles.  `serializeHistory` abstracts
`JSON.stringify` (any injective encoding whose length grows with the
image payloads serves; the claims only depend on lengths). -/

/-- Abstraction of `JSON.stringify` for one history item. -/
def serializeItem (it : HistoryItem) : String :=
  toString it.id ++ "|" ++ (match it.image with | some s => s | none => "") ++
    "|" ++ it.diagnosis ++ "|" ++ it.date

/-- Abstraction of `JSON.stringify` for the whole history list. -/
def serializeHistory (h : List HistoryItem) : String :=
  String.join (h.map serializeItem)

/-- Dropping the image payload from every entry (`{ ...item, image: null }`
applied across the ledger — the degradation transform §4.4 of the spec
describes). -/
def stripImages (h : List HistoryItem) : List HistoryItem :=
  h.map (fun it => { it with image := none })

/-- Result of one `saveHistoryToLocalStorage` call: the stored value for
`diagnosisHistory` afterwards, whether the user-visible quota warning
(`alert`) was raised, and how many `setItem` write attempts were made. -/
structure SaveResult where
  stored : Option String
  warned : Bool
  writeAttempts : Nat
deriving Repr, DecidableEq

/-- Function `saveHistoryToLocalStorage` from App.tsx (final variant, lines
638–647): one `localStorage.setItem("diagnosisHistory",
JSON.stringify(history))` attempt inside `try`; on a quota exception the
`catch` block logs and raises the `alert` warning, leaving the stored
value (and the in-memory list, which the function never touches)
unchanged.  No retry of any kind is performed. -/
def saveHistoryToLocalStorage (cap : Nat) (old : Option String)
    (history : List HistoryItem) : SaveResult :=
  let payload := serializeHistory history
  if payload.length ≤ cap then ⟨some payload, false, 1⟩
  else ⟨old, true, 1⟩

/-- The earlier variant of `saveHistoryToLocalStorage` (App.tsx lines
26–44): the `image` property is stripped from every item *before* the
single `setItem` attempt; on a quota exception it likewise only warns. -/
def saveHistoryToLocalStorageEarly (cap : Nat) (old : Option String)
    (history : List HistoryItem) : SaveResult :=
  let payload := serializeHistory (stripImages history)
  if payload.length ≤ cap then ⟨some payload, false, 1⟩
  else ⟨old, true, 1⟩

/-! ## Image ingestion (`resizeImage` / `processFile`, App.tsx lines 612–636
and 763–776)

The browser environment is explicit: whether the `FileReader` read of
the file's bytes succeeds, whether the browser can decode the image
(`img.onload` versus `img.onerror`), and whether
`canvas.getContext("2d")` returns a context. -/

/-- An uploaded file: its MIME type, the data-URL encoding a successful
`readAsDataURL` produces, and its pixel dimensions. -/
structure ImgFile where
  mimeType : String
  data : String
  width : Nat
  height : Nat
deriving Repr, DecidableEq

/-- The browser facts that the promise chain of `resizeImage` depends on. -/
structure ImgEnv where
  readOk : Bool
  decodeOk : Bool
  ctxOk : Bool
deriving Repr, DecidableEq

/-- The encoded image value delivered to `setImage`:
either the original data-URL from `readAsDataURL`, or the
`canvas.toDataURL("image/jpeg", 0.8)` re-encoding at the given pixel
dimensions (quality recorded in tenths). -/
inductive Encoded where
  | dataUrl (raw : String)
  | jpeg (origData : String) (w h : Nat) (qualityTenths : Nat)
deriving Repr, DecidableEq

/-- Function `resizeImage(file, maxWidth)` from App.tsx (lines 612–636): reject if
the read fails (`reader.onerror`), if decoding fails (`img.onerror`), or
if no 2d context is available; otherwise resolve the JPEG re-encoding at
width `maxWidth` and proportional height (`img.height * scale`, the
canvas dimension assignment truncating to an integer). -/
def resizeImage (env : ImgEnv) (file : ImgFile) (maxWidth : Nat) : Option Encoded :=
  if !env.readOk then none
  else if !env.decodeOk then none
  else if !env.ctxOk then none
  else some (.jpeg file.data maxWidth (file.height * maxWidth / file.width) 8)

/-- Function `processFile` from App.tsx (lines 763–776): for image-MIME files,
try `resizeImage(file, 400)`; on rejection fall back to a plain
`readAsDataURL` of the original file whose `onloadend` handler delivers
`reader.result` — the original data-URL when that read succeeds, `null`
when it fails (`onloadend` fires on failure too, with a `null` result).
Returns the value delivered to `setImage` (`none` = no image set or
`setImage(null)`). -/
def processFile (env : ImgEnv) (file : ImgFile) : Option Encoded :=
  if "image/".data.isPrefixOf file.mimeType.data then
    match resizeImage env file 400 with
    | some e => some e
    | none => if env.readOk then some (.dataUrl file.data) else none
  else none

/-! ## Record-level invariant and auxiliary predicates -/

/-- The spec's entitlement-record invariant: `paid == true ⇒ limit ==
unlimited`. -/
def docInv (d : UserDoc) : Prop :=
  d.hasPaid = true → d.diagnosisLimit = Limit.unlimited

instance (d : UserDoc) : Decidable (docInv d) := by
  unfold docInv; infer_instance

/-- The invariant over every document of the remote store. -/
def storeInv (store : Store) : Prop :=
  ∀ p ∈ store, docInv p.2

/-- The entitlement record's usage counter as the spec reads it: the
device-local guest counter for a guest, the stored document counter for
a signed-in account (when the document exists). -/
def recordUsedCount (s : AppState) (store : Store) : Option Nat :=
  match s.user with
  | none => some s.guestStoredCount
  | some u => (lookupUid u.uid store).map (·.diagnosisCount)

/-! ## Concrete sample values used by witnesses and counterexamples -/

/-- A fresh guest session with an uploaded image. -/
def sampleGuestState : AppState :=
  ⟨some "img", "", [], none, 0, .finite GUEST_DIAGNOSIS_LIMIT, 0⟩

/-- A guest session that has exhausted the guest quota. -/
def exhaustedGuestState : AppState :=
  ⟨some "img", "", [], none, GUEST_DIAGNOSIS_LIMIT, .finite GUEST_DIAGNOSIS_LIMIT,
   GUEST_DIAGNOSIS_LIMIT⟩

/-- A sample history entry without an image. -/
def sampleItem (n : Nat) : HistoryItem := ⟨n, none, "diag", "date"⟩

/-! ## Helper lemmas -/

theorem take_length_sub_one_eq_dropLast {α : Type} :
    ∀ (l : List α), l.take (l.length - 1) = l.dropLast
  | [] => rfl
  | [_] => rfl
  | a :: b :: t => by
    have ih := take_length_sub_one_eq_dropLast (b :: t)
    simp only [List.length_cons, Nat.add_sub_cancel] at ih ⊢
    simpa [List.take_succ_cons, List.dropLast] using ih

theorem lookupUid_incrementUser (uid : String) :
    ∀ store : Store, lookupUid uid (incrementUser uid store) =
      (lookupUid uid store).map
        (fun d => { d with diagnosisCount := d.diagnosisCount + 1 })
  | [] => rfl
  | (k, d) :: rest => by
    by_cases hk : k = uid <;>
      simp [incrementUser, lookupUid, hk, lookupUid_incrementUser uid rest]

/-! ## C5 — history bound and eviction -/

/-- C5: appending never lets the history exceed `MAX_HISTORY_ITEMS`
(20), and appending to a list already at the bound prepends the new
entry and evicts exactly the oldest entry, leaving the remaining entries
unchanged and in order. -/
theorem history_bound_and_oldest_eviction (item : HistoryItem) (history : List HistoryItem) :
    (appendHistory item history).length ≤ MAX_HISTORY_ITEMS ∧
    (history.length = MAX_HISTORY_ITEMS →
      appendHistory item history = item :: history.dropLast) := by
  constructor
  · simp only [appendHistory, List.length_take]
    exact Nat.min_le_left _ _
  · intro h
    have h19 : history.take 19 = history.dropLast := by
      have := take_length_sub_one_eq_dropLast history
      rw [h] at this
      simpa [MAX_HISTORY_ITEMS] using this
    simp only [appendHistory, MAX_HISTORY_ITEMS]
    rw [show (20 : Nat) = 19 + 1 from rfl, List.take_succ_cons, h19]

/-- Witness for C5: evict from a concrete full list of 20 entries. -/
theorem history_bound_and_oldest_eviction_witness :
    appendHistory (sampleItem 100) ((List.range 20).map sampleItem) =
      sampleItem 100 :: ((List.range 20).map sampleItem).dropLast ∧
    (appendHistory (sampleItem 100) ((List.range 20).map sampleItem)).length ≤
      MAX_HISTORY_ITEMS :=
  ⟨(history_bound_and_oldest_eviction (sampleItem 100)
      ((List.range 20).map sampleItem)).2 (by decide),
   (history_bound_and_oldest_eviction (sampleItem 100)
      ((List.range 20).map sampleItem)).1⟩

/-! ## C2 — blocked attempt is a quota-exceeded no-op -/

/-- C2: with an image present and a blocked entitlement (finite limit
already reached — an unpaid identity), `handleDiagnose` fails with the
quota-exceeded condition, makes zero oracle calls, performs no increment
and leaves both the component state and the remote store unchanged. -/
theorem blocked_attempt_is_noop (s : AppState) (store : Store) (now : Nat)
    (dateStr : String) (oracle : OracleOutcome) (img : String) (n : Nat)
    (himg : s.image = some img)
    (hlim : s.diagnosisLimit = Limit.finite n)
    (hreached : n ≤ s.diagnosisCount) :
    (handleDiagnose s store now dateStr oracle).outcome =
      DiagnoseOutcome.quotaExceeded
        (match s.user with | some _ => quotaMsgUser | none => quotaMsgGuest) ∧
    (handleDiagnose s store now dateStr oracle).oracleCalls = 0 ∧
    (handleDiagnose s store now dateStr oracle).state = s ∧
    (handleDiagnose s store now dateStr oracle).store = store := by
  have hb : isBlocked s.diagnosisCount s.diagnosisLimit = true := by
    simp [isBlocked, hlim, hreached]
  cases hu : s.user <;> simp [handleDiagnose, himg, hb, hu]

/-- Witness for C2: a guest at `usedCount = GUEST_DIAGNOSIS_LIMIT`. -/
theorem blocked_attempt_is_noop_witness :
    (handleDiagnose exhaustedGuestState [] 1 "d" (.ok (some "t"))).outcome =
      DiagnoseOutcome.quotaExceeded quotaMsgGuest ∧
    (handleDiagnose exhaustedGuestState [] 1 "d" (.ok (some "t"))).oracleCalls = 0 ∧
    (handleDiagnose exhaustedGuestState [] 1 "d" (.ok (some "t"))).state =
      exhaustedGuestState ∧
    (handleDiagnose exhaustedGuestState [] 1 "d" (.ok (some "t"))).store = [] :=
  blocked_attempt_is_noop exhaustedGuestState [] 1 "d" (.ok (some "t")) "img"
    GUEST_DIAGNOSIS_LIMIT rfl rfl (Nat.le_refl _)

/-! ## C4 — oracle failure handling -/

/-- Counterexample for C4: a response whose `content` field is missing
(`null`) is *not* treated as an `OracleFailure` by `handleDiagnose`: the
`content || fallback` expression substitutes a placeholder text and the
run continues as a success, consuming one unit of quota and appending a
history entry.  Evaluated at a fresh guest state with an oracle reply of
`ok none`. -/
theorem missing_content_is_counted_success :
    (handleDiagnose sampleGuestState [] 7 "d" (.ok none)).outcome =
      DiagnoseOutcome.success noContentMsg ∧
    (handleDiagnose sampleGuestState [] 7 "d" (.ok none)).state.diagnosisCount =
      sampleGuestState.diagnosisCount + 1 ∧
    (handleDiagnose sampleGuestState [] 7 "d" (.ok none)).state.history.length =
      sampleGuestState.history.length + 1 :=
  ⟨rfl, rfl, rfl⟩

/-- C4 as amended: for every oracle call that raises an exception — a
network error or a malformed response (the `choices[0].message` access
throwing) — `handleDiagnose` produces the typed `oracleFailure` outcome
carrying a human-readable message (the error's own message, or a default
text), surfaces that message in the diagnosis text, leaves the
entitlement counters (client, guest-local and remote) unchanged and
appends no history entry.  (A response that merely has a `null` content
field is instead treated as a successful diagnosis with a placeholder
text.) -/
theorem oracle_exception_failure_untouched (s : AppState) (store : Store) (now : Nat)
    (dateStr : String) (m : Option String) (img : String)
    (himg : s.image = some img)
    (hnb : isBlocked s.diagnosisCount s.diagnosisLimit = false) :
    (handleDiagnose s store now dateStr (.threw m)).outcome =
      DiagnoseOutcome.oracleFailure (m.getD unknownErrorMsg) ∧
    (handleDiagnose s store now dateStr (.threw m)).state.diagnosis =
      "오류가 발생했습니다: " ++ m.getD unknownErrorMsg ∧
    (handleDiagnose s store now dateStr (.threw m)).state.diagnosisCount =
      s.diagnosisCount ∧
    (handleDiagnose s store now dateStr (.threw m)).state.guestStoredCount =
      s.guestStoredCount ∧
    (handleDiagnose s store now dateStr (.threw m)).state.history = s.history ∧
    (handleDiagnose s store now dateStr (.threw m)).store = store := by
  simp [handleDiagnose, himg, hnb]

/-- Witness for C4 (amended): a network error with message `"boom"` at a
fresh guest state. -/
theorem oracle_exception_failure_untouched_witness :
    (handleDiagnose sampleGuestState [] 7 "d" (.threw (some "boom"))).outcome =
      DiagnoseOutcome.oracleFailure "boom" ∧
    (handleDiagnose sampleGuestState [] 7 "d" (.threw (some "boom"))).state.diagnosis =
      "오류가 발생했습니다: boom" ∧
    (handleDiagnose sampleGuestState [] 7 "d" (.threw (some "boom"))).state.diagnosisCount =
      sampleGuestState.diagnosisCount ∧
    (handleDiagnose sampleGuestState [] 7 "d" (.threw (some "boom"))).state.guestStoredCount =
      sampleGuestState.guestStoredCount ∧
    (handleDiagnose sampleGuestState [] 7 "d" (.threw (some "boom"))).state.history =
      sampleGuestState.history ∧
    (handleDiagnose sampleGuestState [] 7 "d" (.threw (some "boom"))).store = [] :=
  oracle_exception_failure_untouched sampleGuestState [] 7 "d" (some "boom") "img" rfl rfl

/-! ## C1 — unpaid identities are counted exactly once per success -/

/-- C1: for an identity whose entitlement is unpaid (a guest, or a
signed-in account whose limit is not `Infinity` — the client view of
`paid == false`, with the usual condition that a guest's device counter
agrees with the displayed counter), one `handleDiagnose` run that
succeeds increments the displayed counter and the backing entitlement
record counter by exactly one (never zero, never two), while a
quota-blocked or failed run leaves both exactly unchanged. -/
theorem unpaid_counted_exactly_once_per_success
    (s : AppState) (store : Store) (now : Nat) (dateStr : String)
    (oracle : OracleOutcome) (img : String)
    (himg : s.image = some img)
    (hunpaid : s.diagnosisLimit ≠ Limit.unlimited)
    (hsync : s.user = none → s.guestStoredCount = s.diagnosisCount) :
    ((handleDiagnose s store now dateStr oracle).outcome.isSuccess = true →
      (handleDiagnose s store now dateStr oracle).state.diagnosisCount =
          s.diagnosisCount + 1 ∧
      recordUsedCount (handleDiagnose s store now dateStr oracle).state
          (handleDiagnose s store now dateStr oracle).store =
        (recordUsedCount s store).map (· + 1)) ∧
    ((handleDiagnose s store now dateStr oracle).outcome.isSuccess = false →
      (handleDiagnose s store now dateStr oracle).state.diagnosisCount =
          s.diagnosisCount ∧
      recordUsedCount (handleDiagnose s store now dateStr oracle).state
          (handleDiagnose s store now dateStr oracle).store =
        recordUsedCount s store) := by
  by_cases hb : isBlocked s.diagnosisCount s.diagnosisLimit = true
  · cases hu : s.user <;>
      simp [handleDiagnose, himg, hb, hu, DiagnoseOutcome.isSuccess]
  · rw [Bool.not_eq_true] at hb
    cases oracle with
    | threw m =>
      cases hu : s.user <;>
        simp [handleDiagnose, himg, hb, hu, DiagnoseOutcome.isSuccess, recordUsedCount]
    | ok content =>
      cases hu : s.user with
      | none =>
        simp [handleDiagnose, himg, hb, hu, DiagnoseOutcome.isSuccess,
          recordUsedCount, hsync hu]
      | some u =>
        simp [handleDiagnose, himg, hb, hu, hunpaid, DiagnoseOutcome.isSuccess,
          recordUsedCount, lookupUid_incrementUser, Option.map_map]
        rfl

/-- Witness for C1: a fresh guest and a successful oracle reply. -/
theorem unpaid_counted_exactly_once_per_success_witness :
    (handleDiagnose sampleGuestState [] 7 "d" (.ok (some "healthy"))).outcome.isSuccess =
        true ∧
    (handleDiagnose sampleGuestState [] 7 "d" (.ok (some "healthy"))).state.diagnosisCount =
        sampleGuestState.diagnosisCount + 1 ∧
    recordUsedCount (handleDiagnose sampleGuestState [] 7 "d" (.ok (some "healthy"))).state
        (handleDiagnose sampleGuestState [] 7 "d" (.ok (some "healthy"))).store =
      (recordUsedCount sampleGuestState []).map (· + 1) := by
  refine ⟨rfl, ?_⟩
  exact (unpaid_counted_exactly_once_per_success sampleGuestState [] 7 "d"
    (.ok (some "healthy")) "img" rfl (by decide) (fun _ => rfl)).1 rfl

/-! ## C3 — `paid ⇒ unlimited` is preserved by every transition -/

theorem docInv_payDoc (d : UserDoc) : docInv (payDoc d) := fun _ => rfl

theorem docInv_freshUserDoc (u : AuthUser) (now : Nat) : docInv (freshUserDoc u now) := by
  intro h
  simp [freshUserDoc] at h

theorem storeInv_incrementUser (uid : String) :
    ∀ store : Store, storeInv store → storeInv (incrementUser uid store)
  | [], _ => by intro p hp; simp [incrementUser] at hp
  | (k, d) :: rest, h => by
    have hrest : storeInv rest := fun p hp => h p (List.mem_cons_of_mem _ hp)
    have hd : docInv d := h (k, d) (List.mem_cons_self _ _)
    intro p hp
    by_cases hk : k = uid <;> simp [incrementUser, hk] at hp <;>
      rcases hp with hp | hp
    · exact hp ▸ hd
    · exact storeInv_incrementUser uid rest hrest p hp
    · exact hp ▸ hd
    · exact storeInv_incrementUser uid rest hrest p hp

theorem storeInv_payUser (uid : String) :
    ∀ store : Store, storeInv store → storeInv (payUser uid store)
  | [], _ => by intro p hp; simp [payUser] at hp
  | (k, d) :: rest, h => by
    have hrest : storeInv rest := fun p hp => h p (List.mem_cons_of_mem _ hp)
    have hd : docInv d := h (k, d) (List.mem_cons_self _ _)
    intro p hp
    by_cases hk : k = uid <;> simp [payUser, hk] at hp <;>
      rcases hp with hp | hp
    · exact hp ▸ docInv_payDoc d
    · exact storeInv_payUser uid rest hrest p hp
    · exact hp ▸ hd
    · exact storeInv_payUser uid rest hrest p hp

theorem updateFirstByEmail_mem (email : String) :
    ∀ {store store' : Store}, updateFirstByEmail email store = some store' →
      ∀ p ∈ store', p ∈ store ∨ ∃ q ∈ store, p = (q.1, payDoc q.2)
  | [], _, h => by simp [updateFirstByEmail] at h
  | (k, d) :: rest, store', h => by
    by_cases he : d.email = email
    · simp only [updateFirstByEmail, if_pos he] at h
      cases h
      intro p hp
      rcases List.mem_cons.mp hp with hp | hp
      · exact Or.inr ⟨(k, d), List.mem_cons_self _ _, hp⟩
      · exact Or.inl (List.mem_cons_of_mem _ hp)
    · simp only [updateFirstByEmail, if_neg he] at h
      rcases hrec : updateFirstByEmail email rest with _ | rest'
      · rw [hrec] at h; cases h
      · rw [hrec] at h
        cases h
        intro p hp
        rcases List.mem_cons.mp hp with hp | hp
        · exact Or.inl (hp ▸ List.mem_cons_self _ _)
        · rcases updateFirstByEmail_mem email hrec p hp with h1 | ⟨q, hq, hpq⟩
          · exact Or.inl (List.mem_cons_of_mem _ h1)
          · exact Or.inr ⟨q, List.mem_cons_of_mem _ hq, hpq⟩

theorem storeInv_updateUserState (s : AppState) (store : Store)
    (currentUser : Option AuthUser) (now : Nat) (h : storeInv store) :
    storeInv (updateUserState s store currentUser now).2 := by
  cases currentUser with
  | none => exact h
  | some u =>
    cases hl : lookupUid u.uid store with
    | some d => simpa [updateUserState, hl] using h
    | none =>
      intro p hp
      simp only [updateUserState, hl] at hp
      rcases List.mem_append.mp hp with hp | hp
      · exact h p hp
      · simp at hp
        exact hp ▸ docInv_freshUserDoc u now

/-- C3: the invariant `paid == true ⇒ limit == unlimited` holds for
every record a state transition produces: record creation
(`updateUserState` with no existing document, and its sign-in re-read),
the diagnosis increment (`handleDiagnose`), the payment simulation
(`handleSimulatePayment`) and the webhook update (`polarWebhook`) all
map a store whose documents satisfy the invariant to a store whose
documents still satisfy it, and a freshly created record satisfies it
outright. -/
theorem paid_implies_unlimited_all_transitions :
    (∀ (u : AuthUser) (now : Nat), docInv (freshUserDoc u now)) ∧
    (∀ (s : AppState) (store : Store) (currentUser : Option AuthUser) (now : Nat),
      storeInv store → storeInv (updateUserState s store currentUser now).2) ∧
    (∀ (s : AppState) (store : Store) (now : Nat) (dateStr : String)
        (oracle : OracleOutcome),
      storeInv store → storeInv (handleDiagnose s store now dateStr oracle).store) ∧
    (∀ (s : AppState) (store : Store) (now : Nat),
      storeInv store → storeInv (handleSimulatePayment s store now).2) ∧
    (∀ (ev : WebhookEvent) (store : Store),
      storeInv store → storeInv (polarWebhook ev store).1) := by
  refine ⟨docInv_freshUserDoc, storeInv_updateUserState, ?_, ?_, ?_⟩
  · intro s store now dateStr oracle h
    cases himg : s.image with
    | none => simpa [handleDiagnose, himg] using h
    | some img =>
      by_cases hb : isBlocked s.diagnosisCount s.diagnosisLimit = true
      · simpa [handleDiagnose, himg, hb] using h
      · rw [Bool.not_eq_true] at hb
        cases oracle with
        | threw m => simpa [handleDiagnose, himg, hb] using h
        | ok content =>
          cases hu : s.user with
          | none => simpa [handleDiagnose, himg, hb, hu] using h
          | some u =>
            by_cases hinf : s.diagnosisLimit = Limit.unlimited
            · simpa [handleDiagnose, himg, hb, hu, hinf] using h
            · simpa [handleDiagnose, himg, hb, hu, hinf] using
                storeInv_incrementUser u.uid store h
  · intro s store now h
    cases hu : s.user with
    | none => simpa [handleSimulatePayment, hu] using h
    | some u =>
      simp only [handleSimulatePayment, hu]
      exact storeInv_updateUserState s _ (some u) now (storeInv_payUser u.uid store h)
  · intro ev store h
    by_cases hg : ev.type = "pledge_created" ∧ jsToLowerCase ev.orgName = "nmdong-hue"
    · simp only [polarWebhook, if_pos hg]
      rcases hup : updateFirstByEmail ev.pledgerEmail store with _ | store'
      · simpa using h
      · simp only
        intro p hp
        rcases updateFirstByEmail_mem ev.pledgerEmail hup p hp with h1 | ⟨q, hq, hpq⟩
        · exact h p h1
        · exact hpq ▸ docInv_payDoc q.2
    · simpa [polarWebhook, if_neg hg] using h

/-- Witness for C3: the invariant transitions evaluated on a concrete
one-document store. -/
theorem paid_implies_unlimited_all_transitions_witness :
    docInv (freshUserDoc ⟨"u1", "a@example.com", "A"⟩ 3) ∧
    storeInv (updateUserState sampleGuestState
      [("u1", freshUserDoc ⟨"u1", "a@example.com", "A"⟩ 3)]
      (some ⟨"u1", "a@example.com", "A"⟩) 4).2 ∧
    storeInv (polarWebhook ⟨"pledge_created", "nmdong-hue", "a@example.com"⟩
      [("u1", freshUserDoc ⟨"u1", "a@example.com", "A"⟩ 3)]).1 := by
  refine ⟨paid_implies_unlimited_all_transitions.1 ⟨"u1", "a@example.com", "A"⟩ 3,
    paid_implies_unlimited_all_transitions.2.1 sampleGuestState
      [("u1", freshUserDoc ⟨"u1", "a@example.com", "A"⟩ 3)]
      (some ⟨"u1", "a@example.com", "A"⟩) 4 ?_,
    paid_implies_unlimited_all_transitions.2.2.2.2
      ⟨"pledge_created", "nmdong-hue", "a@example.com"⟩
      [("u1", freshUserDoc ⟨"u1", "a@example.com", "A"⟩ 3)] ?_⟩ <;>
  · intro p hp
    simp at hp
    subst hp
    exact docInv_freshUserDoc _ _

/-! ## C7 — webhook sets paid/unlimited and is idempotent -/

theorem payDoc_payDoc (d : UserDoc) : payDoc (payDoc d) = payDoc d := rfl

theorem updateFirstByEmail_spec (email : String) :
    ∀ {store : Store} {d : UserDoc}, findByEmail email store = some d →
      ∃ store', updateFirstByEmail email store = some store' ∧
        findByEmail email store' = some (payDoc d) ∧
        updateFirstByEmail email store' = some store'
  | [], d, h => by simp [findByEmail] at h
  | (k, d0) :: rest, d, h => by
    by_cases he : d0.email = email
    · simp only [findByEmail, if_pos he, Option.some.injEq] at h
      subst h
      refine ⟨(k, payDoc d0) :: rest, ?_, ?_, ?_⟩
      · simp [updateFirstByEmail, he]
      · simp [findByEmail, show (payDoc d0).email = email from he]
      · simp [updateFirstByEmail, show (payDoc d0).email = email from he, payDoc_payDoc]
    · simp only [findByEmail, if_neg he] at h
      obtain ⟨rest', h1, h2, h3⟩ := updateFirstByEmail_spec email h
      exact ⟨(k, d0) :: rest',
        by simp [updateFirstByEmail, he, h1],
        by simp [findByEmail, he, h2],
        by simp [updateFirstByEmail, he, h3]⟩

theorem updateFirstByEmail_of_none (email : String) :
    ∀ {store : Store}, findByEmail email store = none →
      updateFirstByEmail email store = none
  | [], _ => rfl
  | (k, d0) :: rest, h => by
    by_cases he : d0.email = email
    · simp [findByEmail, he] at h
    · simp only [findByEmail, if_neg he] at h
      simp [updateFirstByEmail, he, updateFirstByEmail_of_none email h]

/-- C7: a webhook event with `type = "pledge_created"` whose organization
name lowercases to the expected namespace, and whose pledger email has a
stored account `d`, updates the first matching account to
`paid = true, limit = unlimited` by the fixed assignment `payDoc`, answers
200, and is idempotent: delivering the same event to the resulting store
returns exactly the same store and response again. -/
theorem webhook_sets_paid_and_is_idempotent
    (ev : WebhookEvent) (store : Store) (d : UserDoc)
    (ht : ev.type = "pledge_created")
    (ho : jsToLowerCase ev.orgName = "nmdong-hue")
    (hd : findByEmail ev.pledgerEmail store = some d) :
    (polarWebhook ev store).2 = ⟨200, "User updated successfully."⟩ ∧
    findByEmail ev.pledgerEmail (polarWebhook ev store).1 = some (payDoc d) ∧
    (payDoc d).hasPaid = true ∧ (payDoc d).diagnosisLimit = Limit.unlimited ∧
    polarWebhook ev (polarWebhook ev store).1 = polarWebhook ev store := by
  obtain ⟨store', h1, h2, h3⟩ := updateFirstByEmail_spec ev.pledgerEmail hd
  have hg : ev.type = "pledge_created" ∧ jsToLowerCase ev.orgName = "nmdong-hue" :=
    ⟨ht, ho⟩
  have hw : polarWebhook ev store = (store', ⟨200, "User updated successfully."⟩) := by
    simp [polarWebhook, if_pos hg, h1]
  have hw2 : polarWebhook ev store' = (store', ⟨200, "User updated successfully."⟩) := by
    simp [polarWebhook, if_pos hg, h3]
  rw [hw]
  exact ⟨rfl, h2, rfl, rfl, hw2⟩

/-- Witness for C7: a matching event against a one-account store. -/
theorem webhook_sets_paid_and_is_idempotent_witness :
    (polarWebhook ⟨"pledge_created", "NMdong-Hue", "a@example.com"⟩
        [("u1", freshUserDoc ⟨"u1", "a@example.com", "A"⟩ 3)]).2 =
      ⟨200, "User updated successfully."⟩ ∧
    findByEmail "a@example.com"
        (polarWebhook ⟨"pledge_created", "NMdong-Hue", "a@example.com"⟩
          [("u1", freshUserDoc ⟨"u1", "a@example.com", "A"⟩ 3)]).1 =
      some (payDoc (freshUserDoc ⟨"u1", "a@example.com", "A"⟩ 3)) ∧
    polarWebhook ⟨"pledge_created", "NMdong-Hue", "a@example.com"⟩
        (polarWebhook ⟨"pledge_created", "NMdong-Hue", "a@example.com"⟩
          [("u1", freshUserDoc ⟨"u1", "a@example.com", "A"⟩ 3)]).1 =
      polarWebhook ⟨"pledge_created", "NMdong-Hue", "a@example.com"⟩
        [("u1", freshUserDoc ⟨"u1", "a@example.com", "A"⟩ 3)] := by
  have h := webhook_sets_paid_and_is_idempotent
    ⟨"pledge_created", "NMdong-Hue", "a@example.com"⟩
    [("u1", freshUserDoc ⟨"u1", "a@example.com", "A"⟩ 3)]
    (freshUserDoc ⟨"u1", "a@example.com", "A"⟩ 3) rfl (by decide) (by decide)
  exact ⟨h.1, h.2.1, h.2.2.2.2⟩

/-! ## C8 — events matching no account -/

/-- Counterexample for C8 as stated: an event whose pledger email matches
no stored account but whose `type` is not `pledge_created` is *skipped*
with HTTP 200, not answered with the 404 not-found outcome the claim
promises for every such event.  (The store is still left unchanged.) -/
theorem skipped_event_returns_200_not_404 :
    findByEmail "x@example.com" ([] : Store) = none ∧
    polarWebhook ⟨"pledge_deleted", "nmdong-hue", "x@example.com"⟩ [] =
      ([], ⟨200, "Event skipped"⟩) ∧
    (polarWebhook ⟨"pledge_deleted", "nmdong-hue", "x@example.com"⟩ []).2.status ≠ 404 := by
  refine ⟨rfl, ?_, ?_⟩ <;> decide

/-- C8 as amended: for every webhook event whose pledger email matches no
stored account, the store is left completely unchanged (no mutation on
any code path), and — provided the event passes the
`type`/organization-namespace gate — the receiver answers with the
not-found outcome (404, "User not found"); an event failing the gate is
instead skipped with 200 and likewise performs no mutation. -/
theorem no_matching_account_no_mutation (ev : WebhookEvent) (store : Store)
    (hnone : findByEmail ev.pledgerEmail store = none) :
    (polarWebhook ev store).1 = store ∧
    (ev.type = "pledge_created" → jsToLowerCase ev.orgName = "nmdong-hue" →
      (polarWebhook ev store).2 = ⟨404, "User not found"⟩) := by
  by_cases hg : ev.type = "pledge_created" ∧ jsToLowerCase ev.orgName = "nmdong-hue"
  · have hw : polarWebhook ev store = (store, ⟨404, "User not found"⟩) := by
      simp [polarWebhook, if_pos hg, updateFirstByEmail_of_none ev.pledgerEmail hnone]
    rw [hw]
    exact ⟨rfl, fun _ _ => rfl⟩
  · have hw : polarWebhook ev store = (store, ⟨200, "Event skipped"⟩) := by
      simp [polarWebhook, if_neg hg]
    rw [hw]
    exact ⟨rfl, fun h1 h2 => absurd ⟨h1, h2⟩ hg⟩

/-- Witness for C8 (amended): a gate-passing event whose email matches
nothing in a one-account store. -/
theorem no_matching_account_no_mutation_witness :
    (polarWebhook ⟨"pledge_created", "nmdong-hue", "b@example.com"⟩
        [("u1", freshUserDoc ⟨"u1", "a@example.com", "A"⟩ 3)]).1 =
      [("u1", freshUserDoc ⟨"u1", "a@example.com", "A"⟩ 3)] ∧
    (polarWebhook ⟨"pledge_created", "nmdong-hue", "b@example.com"⟩
        [("u1", freshUserDoc ⟨"u1", "a@example.com", "A"⟩ 3)]).2 =
      ⟨404, "User not found"⟩ := by
  have h := no_matching_account_no_mutation
    ⟨"pledge_created", "nmdong-hue", "b@example.com"⟩
    [("u1", freshUserDoc ⟨"u1", "a@example.com", "A"⟩ 3)] (by decide)
  exact ⟨h.1, h.2 rfl (by decide)⟩

/-! ## C10 — case handling of the namespace check and the email lookup -/

/-- A store holding one account whose stored email is capitalized
`"A@example.com"`. -/
def caseStore : Store := [("u1", ⟨"A@example.com", "Alice", 0, .finite 20, false, 0⟩)]

/-- C10: the namespace check is case-insensitive — changing the event's
organization name to any string with the same lowercasing leaves the
entire webhook result (processed or skipped, response and store)
unchanged — whereas the payer-email lookup is case-sensitive exact
equality: against a store holding `"A@example.com"`, the event with
email `"a@example.com"` finds no account (404) while the exact-case
event updates it (200). -/
theorem org_case_insensitive_email_case_sensitive
    (ev : WebhookEvent) (o2 : String) (store : Store)
    (hcase : jsToLowerCase o2 = jsToLowerCase ev.orgName) :
    polarWebhook { ev with orgName := o2 } store = polarWebhook ev store ∧
    (polarWebhook ⟨"pledge_created", "nmdong-hue", "a@example.com"⟩ caseStore).2.status =
      404 ∧
    (polarWebhook ⟨"pledge_created", "nmdong-hue", "A@example.com"⟩ caseStore).2.status =
      200 := by
  refine ⟨?_, by decide, by decide⟩
  simp [polarWebhook, hcase]

/-- Witness for C10: the uppercase and mixed-case organization names give
the same result. -/
theorem org_case_insensitive_email_case_sensitive_witness :
    polarWebhook { (⟨"pledge_created", "nmDong-Hue", "A@example.com"⟩ : WebhookEvent) with
        orgName := "NMDONG-HUE" } caseStore =
      polarWebhook ⟨"pledge_created", "nmDong-Hue", "A@example.com"⟩ caseStore ∧
    (polarWebhook ⟨"pledge_created", "nmdong-hue", "a@example.com"⟩ caseStore).2.status =
      404 :=
  ⟨(org_case_insensitive_email_case_sensitive
      ⟨"pledge_created", "nmDong-Hue", "A@example.com"⟩ "NMDONG-HUE" caseStore
      (by decide)).1,
   (org_case_insensitive_email_case_sensitive
      ⟨"pledge_created", "nmDong-Hue", "A@example.com"⟩ "NMDONG-HUE" caseStore
      (by decide)).2.1⟩

/-! ## C6 — persistence on storage-capacity failure -/

/-- A history entry whose image payload dominates the serialized size. -/
def bigItem : HistoryItem :=
  ⟨1, some "0123456789012345678901234567890123456789", "diag", "d"⟩

/-- Counterexample for C6 as stated: at capacity 20 the full one-entry
ledger does not fit but its image-stripped form would, yet
`saveHistoryToLocalStorage` makes exactly one write attempt and stores
nothing — it neither strips the images nor retries, so the stored value
is not the stripped ledger the claim's degrade-and-retry behaviour would
have produced. -/
theorem quota_failure_makes_no_stripped_retry :
    (serializeHistory [bigItem]).length > 20 ∧
    (serializeHistory (stripImages [bigItem])).length ≤ 20 ∧
    (saveHistoryToLocalStorage 20 none [bigItem]).stored = none ∧
    (saveHistoryToLocalStorage 20 none [bigItem]).stored ≠
      some (serializeHistory (stripImages [bigItem])) ∧
    (saveHistoryToLocalStorage 20 none [bigItem]).writeAttempts = 1 := by
  refine ⟨by decide, by decide, by decide, ?_, by decide⟩
  decide

/-- C6 as amended: when writing the ledger fails due to capacity, the
live `saveHistoryToLocalStorage` performs no stripped-image retry: it
makes its single write attempt, surfaces the user-visible warning, and
leaves the stored value — and the in-memory ledger, which it never
touches — unchanged.  (The earlier variant of the function instead
strips the image field from every entry before its single write attempt,
storing the stripped ledger whenever that fits.) -/
theorem quota_failure_warns_and_keeps_ledger (cap : Nat) (old : Option String)
    (history : List HistoryItem)
    (hfail : cap < (serializeHistory history).length) :
    saveHistoryToLocalStorage cap old history = ⟨old, true, 1⟩ ∧
    ((serializeHistory (stripImages history)).length ≤ cap →
      saveHistoryToLocalStorageEarly cap old history =
        ⟨some (serializeHistory (stripImages history)), false, 1⟩) := by
  constructor
  · simp [saveHistoryToLocalStorage, Nat.not_le.mpr hfail]
  · intro hfit
    simp [saveHistoryToLocalStorageEarly, hfit]

/-- Witness for C6 (amended): the concrete over-capacity ledger. -/
theorem quota_failure_warns_and_keeps_ledger_witness :
    saveHistoryToLocalStorage 20 (some "prev") [bigItem] = ⟨some "prev", true, 1⟩ ∧
    saveHistoryToLocalStorageEarly 20 (some "prev") [bigItem] =
      ⟨some (serializeHistory (stripImages [bigItem])), false, 1⟩ := by
  have h := quota_failure_warns_and_keeps_ledger 20 (some "prev") [bigItem] (by decide)
  exact ⟨h.1, h.2 (by decide)⟩

/-! ## C9 — image ingestion fallback -/

/-- A well-formed image file. -/
def sampleFile : ImgFile := ⟨"image/png", "orig-data-url", 800, 600⟩

/-- Counterexample for C9 as stated: when the `FileReader` read of the
file's bytes itself fails, `resizeImage` rejects via `reader.onerror`
and the fallback `readAsDataURL` also fails, so its `onloadend` handler
(which fires on failure too) delivers `reader.result = null` — no
encoded image reaches the caller, contradicting "always delivers an
encoded image".  (No exception escapes; the listed decode-level triggers
are unaffected, since decoding only starts after a successful read.) -/
theorem unreadable_file_delivers_nothing :
    ("image/".data.isPrefixOf sampleFile.mimeType.data = true) ∧
    processFile ⟨false, true, true⟩ sampleFile = none := by
  exact ⟨by decide, by decide⟩

/-- C9 as amended: for every image-MIME file whose bytes the
`FileReader` can read, ingestion delivers the bounded resized encoding
(fixed 400 px width, proportional height, JPEG at quality 0.8) when the
image decodes and a drawing surface is available, and otherwise — corrupt
image, unsupported format, or drawing surface unavailable — falls back
without throwing to the original unmodified encoding; in either case an
encoded image is delivered.  Only when the read of the file's bytes
itself fails does the fallback set a null image instead (still without
throwing). -/
theorem ingestion_resizes_or_falls_back (env : ImgEnv) (file : ImgFile)
    (hmime : "image/".data.isPrefixOf file.mimeType.data = true)
    (hread : env.readOk = true) :
    (env.decodeOk = true → env.ctxOk = true →
      processFile env file =
        some (.jpeg file.data 400 (file.height * 400 / file.width) 8)) ∧
    (¬(env.decodeOk = true ∧ env.ctxOk = true) →
      processFile env file = some (.dataUrl file.data)) ∧
    (processFile env file).isSome = true := by
  refine ⟨?_, ?_, ?_⟩
  · intro hdec hctx
    simp [processFile, resizeImage, hmime, hread, hdec, hctx]
  · intro hnot
    by_cases hdec : env.decodeOk = true
    · have hctx : ¬env.ctxOk = true := fun hc => hnot ⟨hdec, hc⟩
      simp [processFile, resizeImage, hmime, hread, hdec, hctx]
    · simp [processFile, resizeImage, hmime, hread, hdec]
  · by_cases hdec : env.decodeOk = true <;> by_cases hctx : env.ctxOk = true <;>
      simp [processFile, resizeImage, hmime, hread, hdec, hctx]

/-- Witness for C9 (amended): a readable but undecodable (corrupt) file
falls back to the original encoding. -/
theorem ingestion_resizes_or_falls_back_witness :
    processFile ⟨true, false, true⟩ sampleFile = some (.dataUrl sampleFile.data) ∧
    (processFile ⟨true, false, true⟩ sampleFile).isSome = true := by
  have h := ingestion_resizes_or_falls_back ⟨true, false, true⟩ sampleFile
    (by decide) rfl
  exact ⟨h.2.1 (by simp), h.2.2⟩

end CropDiagnosis
